import Mathlib

/-!
Verification development for the zot local image-storage engine
(package pkg/storage/local, exercised by the local_test suite in the
sources).  The storage engine's pure core — repository-name validation,
repository layout creation/validation/listing, the dedup commit decision
procedure, blob-range selection, the per-repository mark-and-sweep
garbage collector, and the dedup-index rebuild — is shallowly embedded
below.  File systems are modelled as association lists from paths to
inodes/contents; names and byte strings are lists of byte values
(List Nat), so that byte sequences outside the valid UTF-8 range are
representable.
-/

namespace Zot

/-- Byte representation (ASCII code points) of a Lean string literal;
used to write concrete repository names and file contents. -/
def strBytes (s : String) : List Nat :=
  s.data.map Char.toNat

/-- The error kinds surfaced by the storage engine (section 7 of the
spec); mirrors zerr.Err* in the sources. -/
inductive StorageError where
  | invalidRepoName
  | repoNotFound
  | repoBadVersion
  | badRange
  | blobNotFound
  | badBlobDigest
  | cacheError
  | conflict
  | ioError
deriving DecidableEq, Repr

/-- A byte is a lowercase ASCII letter or a digit. -/
def isAlnumByte (c : Nat) : Bool :=
  (97 ≤ c && c ≤ 122) || (48 ≤ c && c ≤ 57)

/-- A byte is one of the in-component separators: period, underscore,
hyphen. -/
def isSepByte (c : Nat) : Bool :=
  c = 46 || c = 95 || c = 45

/-- States of the repository-name automaton: at the start of a path
component, inside an alphanumeric run, or right after a separator. -/
inductive NameState where
  | start
  | run
  | sep
deriving DecidableEq, Repr

/-- One step of the repository-name automaton for the OCI grammar
given in section 3 of the spec:
[a-z0-9]+([._-][a-z0-9]+)*(/[a-z0-9]+([._-][a-z0-9]+)*)*.
Byte 47 is the path separator. -/
def nameStep : NameState → Nat → Option NameState
  | NameState.start, c => if isAlnumByte c then some NameState.run else none
  | NameState.run, c =>
      if isAlnumByte c then some NameState.run
      else if isSepByte c then some NameState.sep
      else if c = 47 then some NameState.start
      else none
  | NameState.sep, c => if isAlnumByte c then some NameState.run else none

/-- Modelled from the spec: the repository-name check of
pkg/storage/local (not present in the sources; its regular expression
zreg.FullNameRegexp and utf8.ValidString guard are referenced by the
local_test suite).  A byte string is a valid repository name iff the
grammar automaton accepts it; every byte outside the ASCII subset used
by the grammar (in particular bytes of invalid UTF-8 sequences) is
rejected. -/
def repoNameValid (name : List Nat) : Bool :=
  match name.foldl (fun st c => st.bind (fun s => nameStep s c)) (some NameState.start) with
  | some NameState.run => true
  | _ => false

/-- First-match association-list lookup, used to model path lookup
(stat) in directories and key lookup in the dedup KV store. -/
def alookup {α β : Type} [DecidableEq α] (k : α) : List (α × β) → Option β
  | [] => none
  | e :: t => if e.1 = k then some e.2 else alookup k t

/-- The contents of one repository directory: the oci-layout marker
file (with its bytes, when present), the index.json file (with its
bytes, when present), the blobs/<alg>/ and .uploads/ directories, and
the hex names of blob files living under blobs/<alg>/ (carried so that
re-initialisation can be shown not to clobber existing content). -/
structure RepoDir where
  layout : Option (List Nat)
  indexJson : Option (List Nat)
  hasBlobsDir : Bool
  hasUploadsDir : Bool
  blobFiles : List (List Nat)
deriving DecidableEq, Repr

/-- Bytes of the OCI layout marker written by init_repo. -/
def ociLayoutContent : List Nat :=
  strBytes "\x7b\"imageLayoutVersion\":\"1.0.0\"\x7d"

/-- Bytes of the empty index.json written by init_repo. -/
def emptyIndexContent : List Nat :=
  strBytes "\x7b\"schemaVersion\":2,\"manifests\":[]\x7d"

/-- Modelled from the spec: the body of init_repo on an existing
directory (pkg/storage/local initRepo is not in the sources).  Each of
the four components is created only when absent — the layout marker and
index.json keep their existing bytes when already present — and blob
files already under blobs/<alg>/ are left untouched. -/
def ensureRepoDir (d : RepoDir) : RepoDir :=
  { layout := some (d.layout.getD ociLayoutContent)
    indexJson := some (d.indexJson.getD emptyIndexContent)
    hasBlobsDir := true
    hasUploadsDir := true
    blobFiles := d.blobFiles }

/-- The directory produced by init_repo at a previously absent path. -/
def freshRepoDir : RepoDir :=
  ensureRepoDir { layout := none, indexJson := none, hasBlobsDir := false,
                  hasUploadsDir := false, blobFiles := [] }

/-- A completely empty directory. -/
def emptyDir : RepoDir :=
  { layout := none, indexJson := none, hasBlobsDir := false,
    hasUploadsDir := false, blobFiles := [] }

/-- The storage root as seen by the layout manager: the files placed
directly in the root directory itself (the candidate the walk sees
under the relative name "."), the root's parent directory (the ".."
candidate), and the named subdirectories. -/
structure LayoutRoot where
  rootSelf : RepoDir
  parent : RepoDir
  subs : List (List Nat × RepoDir)
deriving Repr

/-- Re-initialisation of the directory entry carrying the given name:
every entry at that name gets its missing layout components created by
ensureRepoDir, other entries are untouched. -/
def updateSub (name : List Nat) (e : List Nat × RepoDir) : List Nat × RepoDir :=
  if e.1 = name then (e.1, ensureRepoDir e.2) else e

/-- Modelled from the spec: InitRepo of pkg/storage/local (not in the
sources).  The name is checked against the repository grammar first
(invalid names, including invalid UTF-8 byte sequences, fail with
InvalidRepoName before anything is created); then the four layout
components are created, each only when absent.  An error return leaves
the caller's root state untouched. -/
def InitRepo (root : LayoutRoot) (name : List Nat) : Except StorageError LayoutRoot :=
  if repoNameValid name then
    match alookup name root.subs with
    | none => Except.ok { root with subs := root.subs ++ [(name, freshRepoDir)] }
    | some _ => Except.ok { root with subs := root.subs.map (updateSub name) }
  else
    Except.error StorageError.invalidRepoName

/-- N successive invocations of InitRepo on the same name. -/
def initRepoN : Nat → LayoutRoot → List Nat → Except StorageError LayoutRoot
  | 0, root, _ => Except.ok root
  | Nat.succ n, root, name => (InitRepo root name).bind (fun r => initRepoN n r name)

/-- A directory forms a well-formed repository layout: layout marker
with the correct version bytes, an index.json, blobs/, and .uploads/
all present. -/
def validLayoutDir (d : RepoDir) : Bool :=
  d.hasBlobsDir && d.hasUploadsDir && d.indexJson.isSome
    && (d.layout == some ociLayoutContent)

/-- Modelled from the spec: the per-directory part of ValidateRepo of
pkg/storage/local (not in the sources; its behaviour on "." and ".."
is pinned by TestValidateRepo in the local_test suite).  The name is
checked before the directory is inspected; a wrong layout version
yields RepoBadVersion; a directory missing components validates to
false without error. -/
def validateRepoDir (name : List Nat) (d : RepoDir) : Except StorageError Bool :=
  if repoNameValid name then
    if d.hasBlobsDir && d.hasUploadsDir && d.indexJson.isSome then
      match d.layout with
      | none => Except.ok false
      | some c =>
          if c = ociLayoutContent then Except.ok true
          else Except.error StorageError.repoBadVersion
  else Except.ok false
  else
    Except.error StorageError.invalidRepoName

/-- Modelled from the spec: ValidateRepo of pkg/storage/local (not in
the sources).  The name check runs before any filesystem inspection;
a missing directory yields RepoNotFound. -/
def ValidateRepo (root : LayoutRoot) (name : List Nat) : Except StorageError Bool :=
  if repoNameValid name then
    match alookup name root.subs with
    | none => Except.error StorageError.repoNotFound
    | some d => validateRepoDir name d
  else
    Except.error StorageError.invalidRepoName

/-- The candidate (relative-name, directory) pairs the GetRepositories
walk inspects: the parent directory under the name "..", the root
itself under the name ".", and every subdirectory. -/
def walkCandidates (root : LayoutRoot) : List (List Nat × RepoDir) :=
  (strBytes "..", root.parent) :: (strBytes ".", root.rootSelf) :: root.subs

/-- Modelled from the spec: GetRepositories of pkg/storage/local (not
in the sources).  The walk validates every candidate's relative name
and layout via validateRepoDir and silently skips any candidate that
fails validation or returns an error; it never aborts. -/
def GetRepositories (root : LayoutRoot) : List (List Nat) :=
  (walkCandidates root).foldr
    (fun e acc =>
      match validateRepoDir e.1 e.2 with
      | Except.ok true => e.1 :: acc
      | _ => acc)
    []

/-- The walk loop of GetNextRepository over the list of valid
repositories in walk (lexicographic) order, carrying the flag that
records whether the cursor has been seen; when the flag is set the
next repository is returned together with the end-of-stream signal
(io.EOF), which is how the walk is terminated. -/
def getNextGo (cursor : List Nat) : List (List Nat) → Bool → (List Nat × Bool)
  | [], _ => ([], false)
  | r :: rest, found =>
      if found then (r, true) else getNextGo cursor rest (r = cursor)

/-- Modelled from the spec: GetNextRepository of pkg/storage/local
(not in the sources; its observable behaviour is pinned by
TestGetNextRepository in the local_test suite, which sees io.EOF
returned together with the first of two repositories).  The input list
holds the valid repository names in walk order; the boolean result
component is true exactly when the walk was stopped by returning
io.EOF together with a found name. -/
def GetNextRepository (repos : List (List Nat)) (cursor : List Nat) : List Nat × Bool :=
  if cursor = [] then
    match repos with
    | [] => ([], false)
    | r :: _ => (r, true)
  else
    getNextGo cursor repos false

/-- The final path of a blob: repository name plus digest (the on-disk
path blobs/<alg>/<hex> inside that repository). -/
structure FileKey where
  repo : List Nat
  digest : List Nat
deriving DecidableEq, Repr

/-- The blob-store state: whether dedup is enabled, the blob files on
disk (path to inode), the contents held by each inode, the dedup KV
store entries (digest to path, in insertion order; the first entry for
a digest is the canonical one returned by GetBlob), and the next fresh
inode number. -/
structure ImageStore where
  dedupe : Bool
  files : List (FileKey × Nat)
  inodeBytes : List (Nat × List Nat)
  cacheEntries : List (List Nat × FileKey)
  nextInode : Nat
deriving Repr

/-- The freshly created store of a test run, as configured by
NewImageStore with the given dedup setting. -/
def emptyStore (dedupe : Bool) : ImageStore :=
  { dedupe := dedupe, files := [], inodeBytes := [], cacheEntries := [], nextInode := 0 }

/-- Behaviour of the injected dedup KV store on insert: the error, if
any, that PutBlob returns for a given digest and path.  The real cache
driver never fails (putErr is always none); the CacheMock of
TestStorageCacheErrors fails on paths inside a chosen repository. -/
structure CacheBehavior where
  putErr : List Nat → FileKey → Option StorageError

/-- The well-behaved KV store: inserts never fail. -/
def normalCache : CacheBehavior := { putErr := fun _ _ => none }

/-- A KV store whose inserts fail with error e on every path inside
repository r, as synthesized by the CacheMock in
TestStorageCacheErrors. -/
def failingCacheOn (r : List Nat) (e : StorageError) : CacheBehavior :=
  { putErr := fun _ k => if k.repo = r then some e else none }

/-- Cache lookup: the canonical path recorded for a digest. -/
def cacheGetBlob (s : ImageStore) (d : List Nat) : Option FileKey :=
  alookup d s.cacheEntries

/-- Cache insert: may fail according to the behaviour; on success the
path is appended under the digest (the first-inserted path stays
canonical). -/
def cachePutBlob (beh : CacheBehavior) (s : ImageStore) (d : List Nat) (k : FileKey) :
    Except StorageError ImageStore :=
  match beh.putErr d k with
  | some e => Except.error e
  | none => Except.ok { s with cacheEntries := s.cacheEntries ++ [(d, k)] }

/-- Cache delete of one digest-to-path entry (used to drop a stale
canonical record whose file no longer exists). -/
def cacheDeleteEntry (s : ImageStore) (d : List Nat) (k : FileKey) : ImageStore :=
  { s with cacheEntries := s.cacheEntries.filter (fun e => !(e.1 = d && e.2 = k)) }

/-- stat of a blob path: the inode of the file, when it exists. -/
def statFile (s : ImageStore) (k : FileKey) : Option Nat :=
  alookup k s.files

/-- rename of a freshly written scratch file to its final path: the
destination is (over)written as a new file with a fresh inode holding
the uploaded bytes. -/
def renameInto (s : ImageStore) (k : FileKey) (content : List Nat) : ImageStore :=
  { s with
    files := (s.files.filter (fun e => !(e.1 = k))) ++ [(k, s.nextInode)]
    inodeBytes := s.inodeBytes ++ [(s.nextInode, content)]
    nextInode := s.nextInode + 1 }

/-- link: the destination path is (re)created as a hard link to the
given inode (any existing file at the destination is removed first,
as the EEXIST branch of the dedup commit does). -/
def linkInto (s : ImageStore) (k : FileKey) (inode : Nat) : ImageStore :=
  { s with files := (s.files.filter (fun e => !(e.1 = k))) ++ [(k, inode)] }

/-- Modelled from the spec: the dedup commit loop of
pkg/storage/local DedupeBlob (not in the sources; section 4.5 of the
spec gives the algorithm and TestStorageCacheErrors pins the
cache-failure behaviour).  With no cache record the path is inserted
into the KV store and the scratch file renamed into place; with a
record whose file fails stat, the stale entry is dropped and the loop
retried; with a live record, the destination is hard-linked to the
canonical inode and the new path inserted into the KV store — a KV
insert error aborts the commit and is surfaced to the caller.  The
fuel argument bounds the stale-entry retries; one unit per cache entry
plus one always suffices because every retry removes an entry. -/
def dedupeBlobGo (beh : CacheBehavior) (d : List Nat) (dst : FileKey) (content : List Nat) :
    Nat → ImageStore → Except StorageError ImageStore
  | 0, _ => Except.error StorageError.cacheError
  | Nat.succ fuel, s =>
      match cacheGetBlob s d with
      | none =>
          (cachePutBlob beh s d dst).bind (fun s1 => Except.ok (renameInto s1 dst content))
      | some p =>
          match statFile s p with
          | none => dedupeBlobGo beh d dst content fuel (cacheDeleteEntry s d p)
          | some inode =>
              (cachePutBlob beh (linkInto s dst inode) d dst).bind Except.ok

/-- Modelled from the spec: DedupeBlob of pkg/storage/local (not in
the sources); commits a verified scratch file to its final path under
the dedup policy. -/
def DedupeBlob (beh : CacheBehavior) (s : ImageStore) (d : List Nat) (dst : FileKey)
    (content : List Nat) : Except StorageError ImageStore :=
  dedupeBlobGo beh d dst content (s.cacheEntries.length + 1) s

/-- Modelled from the spec: FullBlobUpload of pkg/storage/local (not
in the sources).  The bytes are streamed to a scratch file and
verified against the declared digest (uploads considered here declare
the content's true digest, as in every claim); the commit then goes
through DedupeBlob when dedup is enabled, and is a plain rename when
dedup is disabled.  FinishBlobUpload commits through the same two
branches. -/
def FullBlobUpload (beh : CacheBehavior) (s : ImageStore) (repo : List Nat)
    (content : List Nat) (d : List Nat) : Except StorageError ImageStore :=
  if s.dedupe then
    DedupeBlob beh s d { repo := repo, digest := d } content
  else
    Except.ok (renameInto s { repo := repo, digest := d } content)

/-- Modelled from the spec: the range selection of GetBlobPartial of
pkg/storage/local (not in the sources; TestPullRange pins concrete
cases).  The argument is the stored blob's content after the digest
has been resolved to the file.  A negative end means through the end
of the blob; the end is first clamped to the last byte, then the range
is rejected with BadRange when the start is negative, past the size,
or past the clamped end.  On success the selected bytes are returned
together with the chunk size and the total size.  The end-position
clamp runs before the range check, exactly as in the source order. -/
def clampEnd (size toPos : Int) : Int :=
  if toPos < 0 ∨ size ≤ toPos then size - 1 else toPos

/-- Modelled from the spec, continued from clampEnd: the body of
GetBlobPartial after the end position has been clamped. -/
def GetBlobPartial (blob : List Nat) (fromPos toPos : Int) :
    Except StorageError (List Nat × Int × Int) :=
  let size : Int := blob.length
  let toC : Int := clampEnd size toPos
  if fromPos > size ∨ fromPos < 0 ∨ toC < fromPos then
    Except.error StorageError.badRange
  else
    Except.ok ((blob.drop fromPos.toNat).take (toC - fromPos + 1).toNat,
               toC - fromPos + 1, size)

/-- An image manifest as the garbage collector sees it: the config
descriptor digest and the layer descriptor digests. -/
structure GCManifest where
  config : List Nat
  layers : List (List Nat)
deriving DecidableEq, Repr

/-- One repository as the garbage collector sees it: the digests of
the top-level descriptors of index.json, the parse table of manifest
blobs by digest, the blob files (digest and mtime age), and the
in-flight upload sessions (id and age). -/
structure GCRepo where
  indexDescs : List (List Nat)
  manifestBlobs : List (List Nat × GCManifest)
  blobs : List (List Nat × Nat)
  uploads : List (List Nat × Nat)
deriving Repr

/-- A digest is reachable from index.json: it is the digest of some
top-level descriptor, or the config or a layer of a manifest a
top-level descriptor points at. -/
def reachableBlob (r : GCRepo) (d : List Nat) : Bool :=
  r.indexDescs.any (fun m =>
    m == d ||
      (match alookup m r.manifestBlobs with
       | some mf => mf.config == d || mf.layers.contains d
       | none => false))

/-- CheckBlob presence: the blob file exists in the repository. -/
def checkBlob (r : GCRepo) (d : List Nat) : Bool :=
  r.blobs.any (fun b => b.1 == d)

/-- Modelled from the spec: the mark-and-sweep body of RunGCRepo of
pkg/storage/local (not in the sources; section 4.6 of the spec gives
the algorithm and TestGarbageCollect pins its behaviour).  The marked
set is computed from a snapshot of index.json; the sweep unlinks every
blob whose mtime age exceeds the grace delay AND which is not marked,
and removes upload sessions older than the grace. -/
def RunGCRepo (grace : Nat) (r : GCRepo) : GCRepo :=
  { r with
    blobs := r.blobs.filter (fun b => b.2 ≤ grace || reachableBlob r b.1)
    uploads := r.uploads.filter (fun u => u.2 ≤ grace) }

/-- n successive garbage-collection runs (explicit RunGCRepo calls or
GC triggered inline by other operations run the same routine). -/
def iterGC (grace : Nat) : Nat → GCRepo → GCRepo
  | 0, r => r
  | Nat.succ n, r => iterGC grace n (RunGCRepo grace r)

/-- One digest's occurrences across repositories during a rebuild: the
list of (repository path, inode) pairs in walk order. -/
abbrev DigestGroup : Type := List (List Nat × Nat)

/-- The on-disk state a rebuild works on: for every digest, its group
of occurrences. -/
abbrev RebuildState : Type := List (List Nat × DigestGroup)

/-- Modelled from the spec: the per-digest task of RunDedupeForDigest
of pkg/storage/local (not in the sources; section 4.5 of the spec
gives the algorithm).  The first occurrence of the digest is the
canonical one; every later occurrence is hard-linked to its inode. -/
def dedupeGroup : DigestGroup → DigestGroup
  | [] => []
  | p :: rest => p :: rest.map (fun q => (q.1, p.2))

/-- Modelled from the spec: a completed RunDedupeBlobs rebuild (not in
the sources): the per-digest task runs for every digest. -/
def RunDedupeBlobs (s : RebuildState) : RebuildState :=
  s.map (fun g => (g.1, dedupeGroup g.2))

/-- Modelled from the spec: an interrupted rebuild.  Cancellation is
polled between per-digest tasks (sections 4.5 and 5 of the spec), so
an interrupted run has completed the tasks of the first k digests and
left the rest untouched. -/
def runDedupeInterrupted (k : Nat) (s : RebuildState) : RebuildState :=
  (s.take k).map (fun g => (g.1, dedupeGroup g.2)) ++ s.drop k

/-- A sequence of interrupted rebuild attempts, each cancelled after
some number of per-digest tasks. -/
def runDedupeAttempts (ks : List Nat) (s : RebuildState) : RebuildState :=
  ks.foldl (fun st k => runDedupeInterrupted k st) s

/-- The dedup index derivable from a rebuild state: each digest maps
to its canonical (first-occurrence) path. -/
def rebuiltIndex (s : RebuildState) : List (List Nat × Option (List Nat)) :=
  s.map (fun g => (g.1, g.2.head?.map (fun p => p.1)))

/-! Helper lemmas shared by the claim theorems. -/

theorem alookup_eq_none {α β : Type} [DecidableEq α] {k : α} {l : List (α × β)}
    (h : alookup k l = none) : ∀ e ∈ l, e.1 ≠ k := by
  induction l with
  | nil => intro e he; cases he
  | cons a t ih =>
      intro e he
      rw [alookup] at h
      by_cases ha : a.1 = k
      · simp [ha] at h
      · cases he with
        | head => exact ha
        | tail _ he => exact ih (by simpa [ha] using h) e he

theorem alookup_append_of_none {α β : Type} [DecidableEq α] {k : α} {l1 : List (α × β)}
    (l2 : List (α × β)) (h : alookup k l1 = none) :
    alookup k (l1 ++ l2) = alookup k l2 := by
  induction l1 with
  | nil => rfl
  | cons a t ih =>
      rw [alookup] at h
      by_cases ha : a.1 = k
      · simp [ha] at h
      · simpa [alookup, ha] using ih (by simpa [ha] using h)

theorem alookup_map_update {α β : Type} [DecidableEq α] (k : α) (f : β → β)
    (l : List (α × β)) :
    alookup k (l.map (fun e => if e.1 = k then (e.1, f e.2) else e)) =
      (alookup k l).map f := by
  induction l with
  | nil => rfl
  | cons a t ih =>
      by_cases ha : a.1 = k
      · simp [alookup, ha]
      · simp [alookup, ha, ih]

/-! Claim C10. -/

/-- Claim C10: ValidateRepo(".") and ValidateRepo("..") each fail with
InvalidRepoName for every root state whatsoever — the names are
rejected before any filesystem inspection, so the root directory and
its parent can never be validated as repositories. -/
theorem validateRepo_rejects_dot_names (root : LayoutRoot) :
    ValidateRepo root (strBytes ".") = Except.error StorageError.invalidRepoName ∧
    ValidateRepo root (strBytes "..") = Except.error StorageError.invalidRepoName := by
  have h1 : repoNameValid (strBytes ".") = false := by decide
  have h2 : repoNameValid (strBytes "..") = false := by decide
  constructor
  · simp [ValidateRepo, h1]
  · simp [ValidateRepo, h2]

/-! Claim C7. -/

/-- Claim C7: for every byte string that violates the repository-name
grammar — including names beginning with an underscore, period or
hyphen, and byte strings containing code units outside the grammar's
alphabet — InitRepo fails with InvalidRepoName and creates no
repository (the error return leaves the root state untouched). -/
theorem initRepo_rejects_invalid_name (root : LayoutRoot) (name : List Nat)
    (h : repoNameValid name = false) :
    InitRepo root name = Except.error StorageError.invalidRepoName := by
  simp [InitRepo, h]

/-- Witness for C7 at the concrete input of the test scenario:
InitRepo("_trivy") fails with InvalidRepoName, and so does an invalid
byte sequence. -/
theorem initRepo_rejects_invalid_name_witness :
    InitRepo { rootSelf := emptyDir, parent := emptyDir, subs := [] } (strBytes "_trivy") =
      Except.error StorageError.invalidRepoName ∧
    InitRepo { rootSelf := emptyDir, parent := emptyDir, subs := [] } [104, 105, 32, 255] =
      Except.error StorageError.invalidRepoName :=
  ⟨initRepo_rejects_invalid_name _ _ (by decide),
   initRepo_rejects_invalid_name _ _ (by decide)⟩

/-! Claim C5. -/

/-- Claim C5: GetBlobPartial treats a negative end position as
"through the end of the blob"; it fails with BadRange whenever the
start is negative, the start exceeds the blob size, or a nonnegative
end precedes the start; and on success it returns exactly the bytes in
positions [from, min(to, size-1)] inclusive, together with the chunk
size and the total size. -/
theorem getBlobPartial_range_spec (blob : List Nat) (fromPos toPos : Int) :
    ((fromPos < 0 ∨ (blob.length : Int) < fromPos ∨ (0 ≤ toPos ∧ toPos < fromPos)) →
      GetBlobPartial blob fromPos toPos = Except.error StorageError.badRange) ∧
    (∀ bytes csize tsize,
      GetBlobPartial blob fromPos toPos = Except.ok (bytes, csize, tsize) →
      tsize = (blob.length : Int) ∧
      csize = (if toPos < 0 then (blob.length : Int) - 1
               else min toPos ((blob.length : Int) - 1)) - fromPos + 1 ∧
      bytes = (blob.drop fromPos.toNat).take
        (((if toPos < 0 then (blob.length : Int) - 1
           else min toPos ((blob.length : Int) - 1)) - fromPos + 1).toNat)) := by
  have hend : (if toPos < 0 then (blob.length : Int) - 1
       else min toPos ((blob.length : Int) - 1)) = clampEnd (blob.length : Int) toPos := by
    simp only [clampEnd, min_def]
    split_ifs <;> omega
  constructor
  · intro h
    simp only [GetBlobPartial, clampEnd]
    split_ifs <;> first | rfl | (exfalso; omega)
  · intro bytes csize tsize hok
    rw [hend]
    simp only [GetBlobPartial] at hok
    split_ifs at hok with hc
    cases hok
    exact ⟨rfl, rfl, rfl⟩

/-- Witness for C5 at the inputs of the TestPullRange scenario:
from=1, to=0 on the 10-byte blob "test-data1" is rejected with
BadRange, and a successful read at from=2, to=100 returns the bytes in
positions [2, min(100, 9)]. -/
theorem getBlobPartial_range_spec_witness :
    GetBlobPartial (strBytes "test-data1") 1 0 = Except.error StorageError.badRange ∧
    strBytes "st-data1" = ((strBytes "test-data1").drop (2 : Int).toNat).take
      (((if (100 : Int) < 0 then ((strBytes "test-data1").length : Int) - 1
         else min 100 (((strBytes "test-data1").length : Int) - 1)) - 2 + 1).toNat) :=
  ⟨(getBlobPartial_range_spec (strBytes "test-data1") 1 0).1 (by decide),
   ((getBlobPartial_range_spec (strBytes "test-data1") 2 100).2
      (strBytes "st-data1") 8 10 (by rfl)).2.2⟩

/-! Claim C8. -/

theorem validateRepoDir_ok_name {name : List Nat} {d : RepoDir}
    (h : validateRepoDir name d = Except.ok true) : repoNameValid name = true := by
  by_cases hv : repoNameValid name
  · exact hv
  · simp [validateRepoDir, hv] at h

theorem getRepositories_mem_valid (root : LayoutRoot) :
    ∀ n ∈ GetRepositories root, repoNameValid n = true := by
  unfold GetRepositories
  generalize walkCandidates root = cands
  induction cands with
  | nil => intro n hn; cases hn
  | cons e t ih =>
      intro n hn
      simp only [List.foldr] at hn
      cases hval : validateRepoDir e.1 e.2 with
      | error er => rw [hval] at hn; exact ih n hn
      | ok b =>
          cases b with
          | false => rw [hval] at hn; exact ih n hn
          | true =>
              rw [hval] at hn
              cases hn with
              | head => exact validateRepoDir_ok_name hval
              | tail _ hn => exact ih n hn

/-- Claim C8: for every root-directory state, GetRepositories never
returns "." or ".." — even when the root directory or its parent is
itself a complete valid OCI layout — and every returned name satisfies
the repository grammar, so subdirectories with invalid names are
omitted (the walk skips them silently; GetRepositories is a total
function and raises no error). -/
theorem getRepositories_excludes_dot_names (root : LayoutRoot) :
    strBytes "." ∉ GetRepositories root ∧
    strBytes ".." ∉ GetRepositories root ∧
    ∀ n ∈ GetRepositories root, repoNameValid n = true := by
  refine ⟨fun hmem => ?_, fun hmem => ?_, getRepositories_mem_valid root⟩
  · exact (by decide : repoNameValid (strBytes ".") ≠ true)
      (getRepositories_mem_valid root _ hmem)
  · exact (by decide : repoNameValid (strBytes "..") ≠ true)
      (getRepositories_mem_valid root _ hmem)

/-- Witness for C8 on a root holding one grammar-valid repository and
one invalid-named directory, both with complete layouts (the
TestGetRepositories scenario): the returned name test-dir is
grammar-valid. -/
theorem getRepositories_excludes_dot_names_witness :
    repoNameValid (strBytes "test-dir") = true :=
  (getRepositories_excludes_dot_names
    { rootSelf := freshRepoDir, parent := freshRepoDir,
      subs := [(strBytes "test-dir", freshRepoDir), (strBytes "_trivy", freshRepoDir)] }).2.2
    (strBytes "test-dir") (by decide)

/-! Claim C9. -/

/-- Counterexample to claim C9: with repositories repo1 and repo2 in
lexicographic order, the call GetNextRepository("") yields repo1 —
which is not the lexicographically last repository — together with the
end-of-stream signal (io.EOF), exactly as TestGetNextRepository
asserts; so the signal does not accompany the last name only. -/
theorem getNextRepository_counterexample :
    GetNextRepository [strBytes "repo1", strBytes "repo2"] [] = (strBytes "repo1", true) ∧
    strBytes "repo1" ≠ strBytes "repo2" := by
  decide

theorem getNextGo_after (cursor : List Nat) (pre post : List (List Nat))
    (hpre : cursor ∉ pre) :
    getNextGo cursor (pre ++ cursor :: post) false =
      match post with | [] => ([], false) | r :: _ => (r, true) := by
  induction pre with
  | nil => cases post <;> simp [getNextGo]
  | cons p pre ih =>
      have hp : ¬(p = cursor) := fun h => hpre (by simp [h])
      have hpre' : cursor ∉ pre := fun h => hpre (List.mem_cons_of_mem _ h)
      simp only [List.cons_append, getNextGo, hp]
      simpa [getNextGo, hp] using ih hpre'

/-- Claim C9 as amended: GetNextRepository(cursor) returns the name
following the cursor in walk (lexicographic) order — the first name
when the cursor is empty — and the end-of-stream signal accompanies
EVERY call that returns a name (returning io.EOF is how the walk is
stopped), not only the call yielding the last name; when no name
follows the cursor, the empty name is returned without the signal. -/
theorem getNextRepository_cursor_semantics (repos : List (List Nat)) (cursor : List Nat) :
    (cursor = [] →
      GetNextRepository repos cursor =
        match repos with | [] => ([], false) | r :: _ => (r, true)) ∧
    (∀ pre post, cursor ≠ [] → repos = pre ++ cursor :: post → cursor ∉ pre →
      GetNextRepository repos cursor =
        match post with | [] => ([], false) | r :: _ => (r, true)) := by
  constructor
  · intro h
    subst h
    unfold GetNextRepository
    rw [if_pos rfl]
  · intro pre post hne heq hpre
    subst heq
    unfold GetNextRepository
    rw [if_neg hne]
    exact getNextGo_after cursor pre post hpre

/-- Witness for C9 (amended) at the test's inputs: with repositories
repo1 and repo2, the cursor repo1 yields repo2 together with the
end-of-stream signal. -/
theorem getNextRepository_cursor_semantics_witness :
    GetNextRepository [strBytes "repo1", strBytes "repo2"] (strBytes "repo1") =
      (strBytes "repo2", true) :=
  (getNextRepository_cursor_semantics [strBytes "repo1", strBytes "repo2"]
      (strBytes "repo1")).2 [] [strBytes "repo2"] (by decide) rfl (by decide)

/-! Claim C2. -/

theorem reachable_runGC (grace : Nat) (r : GCRepo) (d : List Nat) :
    reachableBlob (RunGCRepo grace r) d = reachableBlob r d := rfl

theorem checkBlob_runGC (grace : Nat) (r : GCRepo) (d : List Nat)
    (hr : reachableBlob r d = true) (hc : checkBlob r d = true) :
    checkBlob (RunGCRepo grace r) d = true := by
  rw [checkBlob, List.any_eq_true] at hc ⊢
  obtain ⟨b, hb, hbd⟩ := hc
  refine ⟨b, List.mem_filter.mpr ⟨hb, ?_⟩, hbd⟩
  have hbd' : b.1 = d := by simpa using hbd
  simp [hbd', hr]

/-- Claim C2: a blob reachable from some descriptor in index.json —
as the manifest blob itself, its config, or one of its layers — is
never removed by any number of garbage-collection runs, no matter how
much older than the grace delay its mtime is; CheckBlob still reports
it present afterwards, and it stays reachable. -/
theorem gc_never_removes_reachable (r : GCRepo) (d : List Nat) (grace n : Nat)
    (hr : reachableBlob r d = true) (hc : checkBlob r d = true) :
    checkBlob (iterGC grace n r) d = true ∧ reachableBlob (iterGC grace n r) d = true := by
  induction n generalizing r with
  | zero => exact ⟨hc, hr⟩
  | succ n ih =>
      rw [iterGC]
      exact ih (RunGCRepo grace r)
        (by rw [reachable_runGC]; exact hr)
        (checkBlob_runGC grace r d hr hc)

/-- Witness for C2 on a repository holding a tagged manifest whose
layer blob is far older than the grace delay: three GC runs at grace 0
keep the layer blob present. -/
theorem gc_never_removes_reachable_witness :
    checkBlob
      (iterGC 0 3
        { indexDescs := [strBytes "m1"],
          manifestBlobs := [(strBytes "m1",
            { config := strBytes "c1", layers := [strBytes "l1"] })],
          blobs := [(strBytes "l1", 1000), (strBytes "c1", 1000), (strBytes "m1", 1000)],
          uploads := [] })
      (strBytes "l1") = true :=
  (gc_never_removes_reachable _ (strBytes "l1") 0 3 (by decide) (by decide)).1

/-! Claims C1 and C3: the dedup commit path. -/

theorem dedupeBlobGo_miss (beh : CacheBehavior) (d : List Nat) (dst : FileKey)
    (content : List Nat) (fuel : Nat) (s : ImageStore)
    (hc : cacheGetBlob s d = none) :
    dedupeBlobGo beh d dst content (fuel + 1) s =
      (cachePutBlob beh s d dst).bind (fun s1 => Except.ok (renameInto s1 dst content)) := by
  simp only [dedupeBlobGo, hc]

theorem dedupeBlobGo_hit (beh : CacheBehavior) (d : List Nat) (dst : FileKey)
    (content : List Nat) (fuel : Nat) (s : ImageStore) (p : FileKey) (i : Nat)
    (hc : cacheGetBlob s d = some p) (hstat : statFile s p = some i) :
    dedupeBlobGo beh d dst content (fuel + 1) s =
      (cachePutBlob beh (linkInto s dst i) d dst).bind Except.ok := by
  simp only [dedupeBlobGo, hc, hstat]

theorem fullBlobUpload_dedupe_hit (beh : CacheBehavior) (s : ImageStore)
    (repo content d : List Nat) (p : FileKey) (i : Nat)
    (hd : s.dedupe = true) (hc : cacheGetBlob s d = some p)
    (hstat : statFile s p = some i) :
    FullBlobUpload beh s repo content d =
      (cachePutBlob beh (linkInto s { repo := repo, digest := d } i) d
          { repo := repo, digest := d }).bind Except.ok := by
  rw [FullBlobUpload, if_pos hd, DedupeBlob]
  exact dedupeBlobGo_hit beh d _ content s.cacheEntries.length s p i hc hstat

/-- Claim C3: when the digest being uploaded is already recorded in
the dedup index at a live path, and the KV store's insert (PutBlob)
fails with some error while the blob is being committed to the
uploading repository, FullBlobUpload (and FinishBlobUpload, which
commits through the same DedupeBlob call) surfaces exactly that error
instead of reporting the upload successful. -/
theorem dedupe_cache_put_error_aborts (beh : CacheBehavior) (s : ImageStore)
    (content d repo2 : List Nat) (p : FileKey) (i : Nat) (e : StorageError)
    (hd : s.dedupe = true)
    (hc : cacheGetBlob s d = some p)
    (hstat : statFile s p = some i)
    (he : beh.putErr d { repo := repo2, digest := d } = some e) :
    FullBlobUpload beh s repo2 content d = Except.error e := by
  rw [fullBlobUpload_dedupe_hit beh s repo2 content d p i hd hc hstat]
  simp only [cachePutBlob, he, Except.bind]

/-- Witness for C3 at the inputs of TestStorageCacheErrors: after a
successful first upload of the blob into repo dedupe1, a second upload
of the same bytes into repo dedupe2 against a KV store that fails
inserts on dedupe2 paths returns the injected cache error. -/
theorem dedupe_cache_put_error_aborts_witness :
    FullBlobUpload (failingCacheOn (strBytes "dedupe2") StorageError.cacheError)
      { dedupe := true,
        files := [({ repo := strBytes "dedupe1", digest := strBytes "dg" }, 0)],
        inodeBytes := [(0, strBytes "test-data3")],
        cacheEntries := [(strBytes "dg", { repo := strBytes "dedupe1", digest := strBytes "dg" })],
        nextInode := 1 }
      (strBytes "dedupe2") (strBytes "test-data3") (strBytes "dg") =
      Except.error StorageError.cacheError :=
  dedupe_cache_put_error_aborts _ _ _ _ _
    { repo := strBytes "dedupe1", digest := strBytes "dg" } 0 StorageError.cacheError
    rfl (by decide) (by decide) (by decide)

/-- Claim C1: starting from a freshly created store, uploading the
same bytes under the same digest into two distinct repositories
succeeds both times; with dedup enabled the two blob files are hard
links sharing one inode, and with dedup disabled the two files get
distinct inodes. -/
theorem fullBlobUpload_dedupe_inodes (b d repo1 repo2 : List Nat) (hne : repo1 ≠ repo2) :
    (∃ s1 s2 i,
      FullBlobUpload normalCache (emptyStore true) repo1 b d = Except.ok s1 ∧
      FullBlobUpload normalCache s1 repo2 b d = Except.ok s2 ∧
      statFile s2 { repo := repo1, digest := d } = some i ∧
      statFile s2 { repo := repo2, digest := d } = some i) ∧
    (∃ s1 s2 i j,
      FullBlobUpload normalCache (emptyStore false) repo1 b d = Except.ok s1 ∧
      FullBlobUpload normalCache s1 repo2 b d = Except.ok s2 ∧
      statFile s2 { repo := repo1, digest := d } = some i ∧
      statFile s2 { repo := repo2, digest := d } = some j ∧
      i ≠ j) := by
  have hk : ({ repo := repo1, digest := d } : FileKey) ≠ { repo := repo2, digest := d } :=
    fun h => hne (congrArg FileKey.repo h)
  constructor
  · refine ⟨⟨true, [(⟨repo1, d⟩, 0)], [(0, b)], [(d, ⟨repo1, d⟩)], 1⟩,
      ⟨true, [(⟨repo1, d⟩, 0), (⟨repo2, d⟩, 0)], [(0, b)],
        [(d, ⟨repo1, d⟩), (d, ⟨repo2, d⟩)], 1⟩,
      0, rfl, ?_, ?_, ?_⟩
    · rw [fullBlobUpload_dedupe_hit normalCache _ repo2 b d ⟨repo1, d⟩ 0
        rfl (by simp [cacheGetBlob, alookup]) (by simp [statFile, alookup])]
      simp only [cachePutBlob, normalCache, linkInto, Except.bind, Except.ok.injEq]
      simp [List.filter, hk]
    · simp [statFile, alookup]
    · simp [statFile, alookup, hk]
  · refine ⟨⟨false, [(⟨repo1, d⟩, 0)], [(0, b)], [], 1⟩,
      ⟨false, [(⟨repo1, d⟩, 0), (⟨repo2, d⟩, 1)], [(0, b), (1, b)], [], 2⟩,
      0, 1, rfl, ?_, ?_, ?_, by decide⟩
    · rw [FullBlobUpload, if_neg (by simp)]
      simp only [renameInto, Except.ok.injEq]
      simp [List.filter, hk]
    · simp [statFile, alookup]
    · simp [statFile, alookup, hk]

/-- Witness for C1 at the inputs of TestDedupeLinks: the bytes
"test-data3" uploaded into repos dedupe1 and dedupe2. -/
theorem fullBlobUpload_dedupe_inodes_witness :
    (∃ s1 s2 i,
      FullBlobUpload normalCache (emptyStore true) (strBytes "dedupe1")
        (strBytes "test-data3") (strBytes "dg") = Except.ok s1 ∧
      FullBlobUpload normalCache s1 (strBytes "dedupe2")
        (strBytes "test-data3") (strBytes "dg") = Except.ok s2 ∧
      statFile s2 { repo := strBytes "dedupe1", digest := strBytes "dg" } = some i ∧
      statFile s2 { repo := strBytes "dedupe2", digest := strBytes "dg" } = some i) ∧
    (∃ s1 s2 i j,
      FullBlobUpload normalCache (emptyStore false) (strBytes "dedupe1")
        (strBytes "test-data3") (strBytes "dg") = Except.ok s1 ∧
      FullBlobUpload normalCache s1 (strBytes "dedupe2")
        (strBytes "test-data3") (strBytes "dg") = Except.ok s2 ∧
      statFile s2 { repo := strBytes "dedupe1", digest := strBytes "dg" } = some i ∧
      statFile s2 { repo := strBytes "dedupe2", digest := strBytes "dg" } = some j ∧
      i ≠ j) :=
  fullBlobUpload_dedupe_inodes (strBytes "test-data3") (strBytes "dg")
    (strBytes "dedupe1") (strBytes "dedupe2") (by decide)

/-! Claim C6: InitRepo idempotence. -/

theorem ensureRepoDir_idem (d : RepoDir) :
    ensureRepoDir (ensureRepoDir d) = ensureRepoDir d := by
  simp [ensureRepoDir]

theorem ensure_fresh : ensureRepoDir freshRepoDir = freshRepoDir := by
  rw [freshRepoDir]
  exact ensureRepoDir_idem _

theorem alookup_map_updateSub (name : List Nat) (l : List (List Nat × RepoDir)) :
    alookup name (l.map (updateSub name)) = (alookup name l).map ensureRepoDir := by
  induction l with
  | nil => rfl
  | cons e t ih =>
      by_cases he : e.1 = name
      · simp [updateSub, alookup, he]
      · simp [updateSub, alookup, he, ih]

theorem map_updateSub_of_none (name : List Nat) (l : List (List Nat × RepoDir))
    (h : alookup name l = none) : l.map (updateSub name) = l := by
  induction l with
  | nil => rfl
  | cons e t ih =>
      have he : e.1 ≠ name := alookup_eq_none h e (List.mem_cons_self e t)
      have ht : alookup name t = none := by
        rw [alookup] at h
        simpa [he] using h
      simp [updateSub, he, ih ht]

theorem map_updateSub_idem (name : List Nat) (l : List (List Nat × RepoDir)) :
    (l.map (updateSub name)).map (updateSub name) = l.map (updateSub name) := by
  rw [List.map_map]
  apply List.map_congr_left
  intro e _
  by_cases he : e.1 = name
  · simp [Function.comp, updateSub, he, ensureRepoDir_idem]
  · simp [Function.comp, updateSub, he]

theorem initRepo_ok (root : LayoutRoot) (name : List Nat)
    (hv : repoNameValid name = true) : ∃ r, InitRepo root name = Except.ok r := by
  rw [InitRepo, if_pos hv]
  cases alookup name root.subs <;> exact ⟨_, rfl⟩

theorem initRepo_stable (root r : LayoutRoot) (name : List Nat)
    (hv : repoNameValid name = true) (h : InitRepo root name = Except.ok r) :
    InitRepo r name = Except.ok r := by
  rw [InitRepo, if_pos hv] at h
  cases hl : alookup name root.subs with
  | none =>
      rw [hl] at h
      injection h with h
      subst h
      rw [InitRepo, if_pos hv]
      have hsc : alookup name (root.subs ++ [(name, freshRepoDir)]) = some freshRepoDir := by
        rw [alookup_append_of_none _ hl]
        simp [alookup]
      rw [show ({ root with subs := root.subs ++ [(name, freshRepoDir)] } : LayoutRoot).subs =
        root.subs ++ [(name, freshRepoDir)] from rfl, hsc]
      have hmap : (root.subs ++ [(name, freshRepoDir)]).map (updateSub name) =
          root.subs ++ [(name, freshRepoDir)] := by
        rw [List.map_append, map_updateSub_of_none name root.subs hl]
        simp [updateSub, ensure_fresh]
      rw [hmap]
  | some dd =>
      rw [hl] at h
      injection h with h
      subst h
      rw [InitRepo, if_pos hv]
      have hsc : alookup name (root.subs.map (updateSub name)) =
          some (ensureRepoDir dd) := by
        rw [alookup_map_updateSub, hl]
        rfl
      rw [show ({ root with subs := root.subs.map (updateSub name) } : LayoutRoot).subs =
        root.subs.map (updateSub name) from rfl, hsc]
      rw [map_updateSub_idem]

theorem initRepoN_eq (name : List Nat) (hv : repoNameValid name = true) (n : Nat) :
    ∀ root, initRepoN (n + 1) root name = InitRepo root name := by
  induction n with
  | zero =>
      intro root
      obtain ⟨r, hr⟩ := initRepo_ok root name hv
      rw [initRepoN, hr]
      simp [Except.bind, initRepoN]
  | succ n ih =>
      intro root
      obtain ⟨r, hr⟩ := initRepo_ok root name hv
      rw [initRepoN, hr]
      simp only [Except.bind]
      rw [ih r, initRepo_stable root r name hv hr]

/-- Claim C6: for every valid repository name and every N >= 1,
invoking InitRepo N times in sequence succeeds each time and leaves
the same state as a single invocation; at a previously absent path the
single call creates a directory with the blobs/ and .uploads/
directories, the empty index.json and the OCI layout marker, and later
invocations on an existing directory only fill in missing components —
blob files and the existing index.json and layout bytes are never
clobbered. -/
theorem initRepo_idempotent (root : LayoutRoot) (name : List Nat) (n : Nat)
    (hv : repoNameValid name = true) :
    (∃ r, InitRepo root name = Except.ok r) ∧
    initRepoN (n + 1) root name = InitRepo root name ∧
    (alookup name root.subs = none →
      ∃ r, InitRepo root name = Except.ok r ∧
        alookup name r.subs = some freshRepoDir ∧
        freshRepoDir.hasBlobsDir = true ∧ freshRepoDir.hasUploadsDir = true ∧
        freshRepoDir.indexJson = some emptyIndexContent ∧
        freshRepoDir.layout = some ociLayoutContent) ∧
    (∀ d, alookup name root.subs = some d →
      ∃ r, InitRepo root name = Except.ok r ∧
        alookup name r.subs = some (ensureRepoDir d) ∧
        (ensureRepoDir d).blobFiles = d.blobFiles ∧
        (∀ c, d.indexJson = some c → (ensureRepoDir d).indexJson = some c) ∧
        (∀ c, d.layout = some c → (ensureRepoDir d).layout = some c)) := by
  refine ⟨initRepo_ok root name hv, initRepoN_eq name hv n root, ?_, ?_⟩
  · intro hl
    refine ⟨{ root with subs := root.subs ++ [(name, freshRepoDir)] },
      by rw [InitRepo, if_pos hv, hl], ?_, rfl, rfl, rfl, rfl⟩
    rw [show ({ root with subs := root.subs ++ [(name, freshRepoDir)] } : LayoutRoot).subs =
      root.subs ++ [(name, freshRepoDir)] from rfl]
    rw [alookup_append_of_none _ hl]
    simp [alookup]
  · intro d hl
    refine ⟨{ root with subs := root.subs.map (updateSub name) },
      by rw [InitRepo, if_pos hv, hl], ?_, rfl, ?_, ?_⟩
    · rw [show ({ root with subs := root.subs.map (updateSub name) } : LayoutRoot).subs =
        root.subs.map (updateSub name) from rfl]
      rw [alookup_map_updateSub, hl]
      rfl
    · intro c hcc
      simp [ensureRepoDir, hcc]
    · intro c hcc
      simp [ensureRepoDir, hcc]

/-- Witness for C6: InitRepo("test") four times on a root that already
holds a partially initialised "test" directory with one blob file. -/
theorem initRepo_idempotent_witness :
    (∃ r, InitRepo
      { rootSelf := emptyDir, parent := emptyDir,
        subs := [(strBytes "test",
          { layout := none, indexJson := some emptyIndexContent, hasBlobsDir := true,
            hasUploadsDir := false, blobFiles := [strBytes "aa11"] })] }
      (strBytes "test") = Except.ok r) ∧
    initRepoN 4
      { rootSelf := emptyDir, parent := emptyDir,
        subs := [(strBytes "test",
          { layout := none, indexJson := some emptyIndexContent, hasBlobsDir := true,
            hasUploadsDir := false, blobFiles := [strBytes "aa11"] })] }
      (strBytes "test") =
      InitRepo
        { rootSelf := emptyDir, parent := emptyDir,
          subs := [(strBytes "test",
            { layout := none, indexJson := some emptyIndexContent, hasBlobsDir := true,
              hasUploadsDir := false, blobFiles := [strBytes "aa11"] })] }
        (strBytes "test") :=
  ⟨(initRepo_idempotent _ (strBytes "test") 3 (by decide)).1,
   (initRepo_idempotent _ (strBytes "test") 3 (by decide)).2.1⟩

/-! Claim C4: rebuild convergence. -/

theorem dedupeGroup_idem (g : DigestGroup) :
    dedupeGroup (dedupeGroup g) = dedupeGroup g := by
  cases g with
  | nil => rfl
  | cons p rest => simp [dedupeGroup, List.map_map, Function.comp]

theorem runAll_absorb (k : Nat) (s : RebuildState) :
    RunDedupeBlobs (runDedupeInterrupted k s) = RunDedupeBlobs s := by
  unfold RunDedupeBlobs runDedupeInterrupted
  rw [List.map_append, List.map_map]
  conv_rhs => rw [← List.take_append_drop k s, List.map_append]
  congr 1
  apply List.map_congr_left
  intro g _
  simp [Function.comp, dedupeGroup_idem]

theorem runAll_attempts (ks : List Nat) (s : RebuildState) :
    RunDedupeBlobs (runDedupeAttempts ks s) = RunDedupeBlobs s := by
  induction ks generalizing s with
  | nil => rfl
  | cons k ks ih =>
      rw [runDedupeAttempts, List.foldl_cons]
      rw [show List.foldl (fun st k => runDedupeInterrupted k st) (runDedupeInterrupted k s) ks =
        runDedupeAttempts ks (runDedupeInterrupted k s) from rfl]
      rw [ih, runAll_absorb]

theorem dedupeGroup_inode_eq_head (g : DigestGroup) (p : List Nat × Nat) :
    ∀ h : List Nat × Nat, ∀ t : DigestGroup, g = h :: t → p ∈ dedupeGroup g → p.2 = h.2 := by
  intro h t hg hp
  subst hg
  rw [dedupeGroup] at hp
  cases hp with
  | head => rfl
  | tail _ hp =>
      obtain ⟨y, _, hy⟩ := List.mem_map.mp hp
      rw [← hy]

/-- Claim C4: any number of interrupted RunDedupeBlobs attempts —
cancellation is polled between per-digest tasks — followed by one run
to completion yields exactly the final filesystem state (and hence the
same derived dedup index) of a single uninterrupted run; in that final
state all occurrences of each digest carry one single inode. -/
theorem runDedupeBlobs_convergence (s : RebuildState) (ks : List Nat) :
    RunDedupeBlobs (runDedupeAttempts ks s) = RunDedupeBlobs s ∧
    rebuiltIndex (RunDedupeBlobs (runDedupeAttempts ks s)) =
      rebuiltIndex (RunDedupeBlobs s) ∧
    ∀ g ∈ RunDedupeBlobs s, ∀ p ∈ g.2, ∀ q ∈ g.2, p.2 = q.2 := by
  refine ⟨runAll_attempts ks s, by rw [runAll_attempts ks s], ?_⟩
  intro g hg p hp q hq
  obtain ⟨g0, _, rfl⟩ := List.mem_map.mp hg
  cases hcase : g0.2 with
  | nil =>
      rw [hcase] at hp
      cases hp
  | cons h t =>
      rw [hcase] at hp hq
      rw [dedupeGroup_inode_eq_head (h :: t) p h t rfl hp,
          dedupeGroup_inode_eq_head (h :: t) q h t rfl hq]

/-- Witness for C4: one digest present in two repositories with
different inodes; two interrupted attempts followed by a complete run
equal a single complete run, in which both occurrences carry the
canonical inode. -/
theorem runDedupeBlobs_convergence_witness :
    RunDedupeBlobs (runDedupeAttempts [1, 0]
      [(strBytes "d1", [(strBytes "dedupe1/blob", 0), (strBytes "dedupe2/blob", 7)])]) =
      RunDedupeBlobs
        [(strBytes "d1", [(strBytes "dedupe1/blob", 0), (strBytes "dedupe2/blob", 7)])] ∧
    ((strBytes "dedupe1/blob", 0) : List Nat × Nat).2 =
      ((strBytes "dedupe2/blob", 0) : List Nat × Nat).2 :=
  ⟨(runDedupeBlobs_convergence
      [(strBytes "d1", [(strBytes "dedupe1/blob", 0), (strBytes "dedupe2/blob", 7)])] [1, 0]).1,
   (runDedupeBlobs_convergence
      [(strBytes "d1", [(strBytes "dedupe1/blob", 0), (strBytes "dedupe2/blob", 7)])] [1, 0]).2.2
     (strBytes "d1", [(strBytes "dedupe1/blob", 0), (strBytes "dedupe2/blob", 0)]) (by decide)
     (strBytes "dedupe1/blob", 0) (by decide)
     (strBytes "dedupe2/blob", 0) (by decide)⟩

end Zot
